import Mathlib

unseal Rat.add Rat.sub Rat.mul Rat.inv

/-!
Verification development for the grappa parameter-canonicalization code.

The definitions below are a shallow embedding of
src/grappa/data/Parameters.py (class Parameters: from_lists, to_dict,
from_dict) and src/grappa/data/dataset_builder.py (match_molecules).
Python floats are modelled as exact rationals; np.pi is modelled as the
IEEE double closest to pi, taken as an exact rational. Numpy arrays are
modelled as lists, with helper functions mirroring python indexing
(negative indices count from the end) and numpy broadcasting where used.
Error raising (assert / raise / IndexError / ValueError) is modelled with
Except String.
-/

/-- Python style list indexing: a negative index counts from the end,
anything still out of range is an IndexError (here: none). -/
def pyGet {α : Type} (l : List α) (i : Int) : Option α :=
  if 0 ≤ i then l.get? i.toNat
  else if 0 ≤ i + l.length then l.get? (i + l.length).toNat
  else none

/-- Python list.index restricted to a total lookup: index of the first
occurrence, none when absent (python raises ValueError). -/
def pyIndex {α : Type} [DecidableEq α] (l : List α) (a : α) : Option Nat :=
  match l with
  | [] => none
  | x :: t => if x = a then some 0 else (pyIndex t a).map (· + 1)

/-- Python float modulo for a positive modulus: x % y = x - y * floor (x / y). -/
def pymod (x y : ℚ) : ℚ := x - y * ((Int.floor (x / y) : ℤ) : ℚ)

/-- The IEEE double closest to pi, as an exact rational: this is the value
of np.pi used by the source. -/
def npPi : ℚ := 884279719003555 / 281474976710656

/-- np.isclose with the default relative tolerance 1e-5 and an explicit
absolute tolerance: abs (a - b) <= atol + rtol * abs b. -/
def npIsClose (a b atol : ℚ) : Bool := decide (|a - b| ≤ atol + |b| / 100000)

/-- Read entry (i, j) of a 2d array modelled as a list of rows, with python
semantics for a negative column index; reads out of range default to 0
(unreachable in the embedded code paths). -/
def npGet2 (m : List (List ℚ)) (i : Nat) (j : Int) : ℚ :=
  match m.get? i with
  | none => 0
  | some row =>
    match pyGet row j with
    | none => 0
    | some v => v

/-- Write entry (i, j) of a 2d array modelled as a list of rows, with python
semantics for a negative column index; writes out of range leave the array
unchanged (unreachable in the embedded code paths). -/
def npSet2 (m : List (List ℚ)) (i : Nat) (j : Int) (v : ℚ) : List (List ℚ) :=
  match m.get? i with
  | none => m
  | some row =>
    let j2 : Nat := if 0 ≤ j then j.toNat else (j + row.length).toNat
    m.set i (row.set j2 v)

/-- np.zeros ((n, w)). -/
def zeros2 (n w : Nat) : List (List ℚ) := List.replicate n (List.replicate w (0 : ℚ))

/-- Map a fallible function over a list, stopping at the first error. -/
def mapExcept {α β : Type} (f : α → Except String β) : List α → Except String (List β)
  | [] => .ok []
  | a :: t =>
    match f a with
    | .error e => .error e
    | .ok b =>
      match mapExcept f t with
      | .error e => .error e
      | .ok bs => .ok (b :: bs)

/-- Whether an Except value is an error. -/
def exErr {α : Type} : Except String α → Bool
  | .error _ => true
  | .ok _ => false

/-- Extract the success value of an Except, if any. -/
def exOk {α : Type} : Except String α → Option α
  | .error _ => none
  | .ok a => some a

/-- Zip four lists into a list of quadruples, truncating at the shortest
(python zip semantics). -/
def zip4 {α β γ δ : Type} : List α → List β → List γ → List δ → List (α × β × γ × δ)
  | a :: as_, b :: bs, c :: cs, d :: ds => (a, b, c, d) :: zip4 as_ bs cs ds
  | _, _, _, _ => []

/-- Component i of a 4-tuple (i taken mod nothing: indices 0..3, any larger
index returns the last component; only 0..3 are ever used). -/
def tget (t : Int × Int × Int × Int) (i : Nat) : Int :=
  match i with
  | 0 => t.1
  | 1 => t.2.1
  | 2 => t.2.2.1
  | _ => t.2.2.2

/-- Apply a permutation, given as a quadruple of positions, to a 4-tuple:
this models "tuple (torsion [i] for i in permutation)". -/
def permute4 (t : Int × Int × Int × Int) (p : Nat × Nat × Nat × Nat) : Int × Int × Int × Int :=
  (tget t p.1, tget t p.2.1, tget t p.2.2.1, tget t p.2.2.2)

/-- Reverse a 4-tuple. -/
def rev4 (t : Int × Int × Int × Int) : Int × Int × Int × Int :=
  (t.2.2.2, t.2.2.1, t.2.1, t.1)

/-- Modelled from the spec: grappa.constants.N_PERIODICITY_PROPER is not
under src/; the spec and the Parameters docstring give the default 6. -/
def N_PERIODICITY_PROPER : Nat := 6

/-- Modelled from the spec: grappa.constants.N_PERIODICITY_IMPROPER is not
under src/; the spec and the Parameters docstring give the default 6. -/
def N_PERIODICITY_IMPROPER : Nat := 6

/-- Modelled from the spec: grappa.constants.IMPROPER_CENTRAL_IDX is not
under src/; the spec gives the canonical central-atom slot, default index 2. -/
def IMPROPER_CENTRAL_IDX : Nat := 2

/-- Modelled from the spec: the Molecule class (grappa.data.Molecule) is not
under src/. Per the spec (section 3, MoleculeTopology) it carries a sequence
of atom ids and canonically ordered interaction tuple lists: bonds (arity 2),
angles (arity 3), propers and impropers (arity 4), all holding atom ids. -/
structure Molecule where
  atoms : List Int
  bonds : List (Int × Int)
  angles : List (Int × Int × Int)
  propers : List (Int × Int × Int × Int)
  impropers : List (Int × Int × Int × Int)
deriving DecidableEq, Repr

/-- Whether two atom ids are bonded in the molecule, in either orientation. -/
def Molecule.adjacent (m : Molecule) (a b : Int) : Bool :=
  m.bonds.any (fun p => (p.1 == a && p.2 == b) || (p.1 == b && p.2 == a))

/-- Modelled from the spec: Molecule.is_improper is not under src/. Per the
spec glossary an improper torsion has one central atom bonded to the other
three, and the resolver determines the central-atom slot from connectivity.
Returns (is_improper, central_atom_position). -/
def Molecule.is_improper (m : Molecule) (t : Int × Int × Int × Int) : Bool × Nat :=
  match ([0, 1, 2, 3] : List Nat).find?
      (fun p => (([0, 1, 2, 3] : List Nat).filter (fun q => q ≠ p)).all
        (fun q => m.adjacent (tget t p) (tget t q))) with
  | some p => (true, p)
  | none => (false, 0)

/-- Canonical ordering of a bond tuple: ascending (np.sort along axis 1). -/
def canonPair (b : Int × Int) : Int × Int := if b.1 ≤ b.2 then b else (b.2, b.1)

/-- Canonical ordering of an angle tuple: reversed unless the first atom id
is less than the last. -/
def canonAngleT (a : Int × Int × Int) : Int × Int × Int :=
  if a.1 < a.2.2 then a else (a.2.2, a.2.1, a.1)

/-- Canonical ordering of a proper torsion tuple: reversed unless the first
atom id is less than the last (dihedral reversal invariance). -/
def canonProperT (t : Int × Int × Int × Int) : Int × Int × Int × Int :=
  if t.1 < t.2.2.2 then t else rev4 t

/-- Canonically reorder every bond tuple of a raw list. -/
def sortPairs (l : List (Int × Int)) : List (Int × Int) := l.map canonPair

/-- Canonically reorder every angle tuple of a raw list. -/
def canonTriples (l : List (Int × Int × Int)) : List (Int × Int × Int) := l.map canonAngleT

/-- Modelled from the spec: Molecule.sort is not under src/. Per the spec
(section 3) it applies the canonical per-tuple ordering: bonds ascending,
angles and propers with first endpoint less than last, impropers unchanged
(their central atom is already at the configured slot). -/
def Molecule.sort (m : Molecule) : Molecule :=
  { m with
    bonds := sortPairs m.bonds,
    angles := canonTriples m.angles,
    propers := m.propers.map canonProperT }

/-- The canonical output record of Parameters.py: row-aligned named arrays.
The improper fields are optional, as in the source dataclass. -/
structure Parameters where
  atoms : List Int
  bonds : List (Int × Int)
  bond_k : List ℚ
  bond_eq : List ℚ
  angles : List (Int × Int × Int)
  angle_k : List ℚ
  angle_eq : List ℚ
  propers : List (Int × Int × Int × Int)
  proper_ks : List (List ℚ)
  proper_phases : List (List ℚ)
  impropers : Option (List (Int × Int × Int × Int))
  improper_ks : Option (List (List ℚ))
  improper_phases : Option (List (List ℚ))
deriving DecidableEq, Repr

/-- Sign normalization of the phase (Parameters.py line 300): a torsion with
negative coefficient has its phase shifted by pi modulo 2 pi. -/
def normPhase (k φ : ℚ) : ℚ := if 0 < k then φ else pymod (φ + npPi) (2 * npPi)

/-- Sign normalization of the coefficient (Parameters.py line 301). -/
def normK (k : ℚ) : ℚ := if 0 < k then k else -k

/-- Convert a raw index 4-tuple to atom ids (Parameters.py line 304):
tuple (atoms [torsion [i]] for i in range 4). -/
def convertIds (atoms : List Int) (t : Int × Int × Int × Int) : Option (Int × Int × Int × Int) :=
  match pyGet atoms t.1, pyGet atoms t.2.1, pyGet atoms t.2.2.1, pyGet atoms t.2.2.2 with
  | some a, some b, some c, some d => some (a, b, c, d)
  | _, _, _, _ => none

/-- The mutable torsion parameter arrays of the from_lists loop. -/
structure TorsionState where
  proper_ks : List (List ℚ)
  proper_phases : List (List ℚ)
  improper_ks : List (List ℚ)
  improper_phases : List (List ℚ)
deriving DecidableEq, Repr

/-- The four candidate permutations for an improper torsion, with their
signs, in source order (Parameters.py line 358). -/
def improperCandidates : List (Int × (Nat × Nat × Nat × Nat)) :=
  [(1, (0, 1, 2, 3)), (1, (3, 2, 1, 0)), (-1, (0, 2, 1, 3)), (-1, (3, 1, 2, 0))]

/-- The side-incompatibility test of Parameters.py lines 345-348: the raw
central-atom slot can only be moved between endpoint slots 0 and 3 or
between inner slots 1 and 2. -/
def sideIncompatible (central : Nat) : Prop :=
  (central ∈ ([0, 3] : List Nat) ∧ ¬ IMPROPER_CENTRAL_IDX ∈ ([0, 3] : List Nat)) ∨
  (central ∈ ([1, 2] : List Nat) ∧ ¬ IMPROPER_CENTRAL_IDX ∈ ([1, 2] : List Nat))

instance (central : Nat) : Decidable (sideIncompatible central) := by
  unfold sideIncompatible; infer_instance

/-- The candidate loop of Parameters.py lines 357-377: try each (sign,
permutation) in order; skip a candidate when the permuted tuple is not in
the impropers list, or when the phase is near neither 0 nor pi and the sign
is -1; on the first accepted candidate, raise if the target cell is already
populated, otherwise store sign * k and the phase and stop with found=true. -/
def improperLoop (mol : Molecule) (s : TorsionState) (t : Int × Int × Int × Int)
    (tk phase : ℚ) (periodicity : Int) :
    List (Int × (Nat × Nat × Nat × Nat)) → Except String (Bool × TorsionState)
  | [] => .ok (false, s)
  | (sign, perm) :: rest =>
    match pyIndex mol.impropers (permute4 t perm) with
    | none => improperLoop mol s t tk phase periodicity rest
    | some improper_idx =>
      if npIsClose phase 0 (1 / 100) = false ∧ npIsClose phase npPi (1 / 100) = false ∧ sign = -1 then
        improperLoop mol s t tk phase periodicity rest
      else
        if npGet2 s.improper_ks improper_idx (periodicity - 1) ≠ 0 then
          .error "ValueError: the torsion appears twice"
        else
          .ok (true,
            { s with
              improper_ks := npSet2 s.improper_ks improper_idx (periodicity - 1) ((sign : ℚ) * tk),
              improper_phases := npSet2 s.improper_phases improper_idx (periodicity - 1) phase })

/-- One iteration of the torsion loop of Parameters.from_lists
(Parameters.py lines 295-384): skip zero coefficients, normalize the sign,
convert indices to atom ids, then handle the proper or improper branch. -/
def processTorsion (mol : Molecule) (allow_skip_improper : Bool) (s : TorsionState)
    (torsion : Int × Int × Int × Int) (torsion_k φ : ℚ) (periodicity : Int) :
    Except String TorsionState :=
  if torsion_k = 0 then .ok s
  else
    match convertIds mol.atoms torsion with
    | none => .error "IndexError"
    | some t =>
      match mol.is_improper t with
      | (false, _) =>
        if periodicity > (N_PERIODICITY_PROPER : Int) then
          .error "ValueError: periodicity too large"
        else
          match pyIndex mol.propers (canonProperT t) with
          | none => .error "ValueError: the torsion is not in the proper torsion list"
          | some proper_idx =>
            if npGet2 s.proper_ks proper_idx (periodicity - 1) ≠ 0 then
              if normPhase torsion_k φ ≠ npGet2 s.proper_phases proper_idx (periodicity - 1) then
                .error "RuntimeError: the torsion appears twice with different phases"
              else
                .ok { s with
                  proper_ks := npSet2 s.proper_ks proper_idx (periodicity - 1)
                    (npGet2 s.proper_ks proper_idx (periodicity - 1) + normK torsion_k) }
            else
              .ok { s with
                proper_ks := npSet2 s.proper_ks proper_idx (periodicity - 1) (normK torsion_k),
                proper_phases := npSet2 s.proper_phases proper_idx (periodicity - 1)
                  (normPhase torsion_k φ) }
      | (true, central) =>
        if periodicity > (N_PERIODICITY_IMPROPER : Int) then
          .error "ValueError: periodicity too large"
        else
          if sideIncompatible central then
            if allow_skip_improper then .ok s
            else .error "RuntimeError: incompatible central atom position"
          else
            match improperLoop mol s t (normK torsion_k) (normPhase torsion_k φ)
                periodicity improperCandidates with
            | .error e => .error e
            | .ok (true, s2) => .ok s2
            | .ok (false, _) =>
              if allow_skip_improper then .ok s
              else .error "RuntimeError: no allowed permutation is in the improper torsion list"

/-- The whole torsion loop: fold processTorsion over the zipped raw records. -/
def processTorsions (mol : Molecule) (allow_skip_improper : Bool) :
    TorsionState → List ((Int × Int × Int × Int) × ℚ × ℚ × Int) → Except String TorsionState
  | s, [] => .ok s
  | s, (t, k, φ, per) :: rest =>
    match processTorsion mol allow_skip_improper s t k φ per with
    | .error e => .error e
    | .ok s2 => processTorsions mol allow_skip_improper s2 rest

/-- The all-zero torsion parameter arrays of Parameters.py lines 289-292. -/
def initState (m : Molecule) : TorsionState :=
  { proper_ks := zeros2 m.propers.length N_PERIODICITY_PROPER,
    proper_phases := zeros2 m.propers.length N_PERIODICITY_PROPER,
    improper_ks := zeros2 m.impropers.length N_PERIODICITY_IMPROPER,
    improper_phases := zeros2 m.impropers.length N_PERIODICITY_IMPROPER }

/-- Convert a raw bond index pair to atom ids, python indexing semantics. -/
def convPairs (atoms : List Int) (l : List (Int × Int)) : Except String (List (Int × Int)) :=
  mapExcept (fun b =>
    match pyGet atoms b.1, pyGet atoms b.2 with
    | some x, some y => .ok (x, y)
    | _, _ => .error "IndexError") l

/-- Convert a raw angle index triple to atom ids, python indexing semantics. -/
def convTriples (atoms : List Int) (l : List (Int × Int × Int)) :
    Except String (List (Int × Int × Int)) :=
  mapExcept (fun a =>
    match pyGet atoms a.1, pyGet atoms a.2.1, pyGet atoms a.2.2 with
    | some x, some y, some z => .ok (x, y, z)
    | _, _, _ => .error "IndexError") l

/-- The bond and angle stage of Parameters.from_lists (Parameters.py lines
260-284): size asserts, duplicate asserts on the raw index tuples, id
conversion, canonical per-tuple reordering, then a first-occurrence lookup
of every topology tuple. Returns (bond_eq, angle_eq, bond_k, angle_k)
selected in topology row order. -/
def bondAngleStage (m : Molecule) (bonds : List (Int × Int)) (angles : List (Int × Int × Int))
    (bond_eq angle_eq bond_k angle_k : List ℚ) :
    Except String (List ℚ × List ℚ × List ℚ × List ℚ) :=
  if bonds.length < m.bonds.length then .error "AssertionError: bonds missing"
  else if angles.length < m.angles.length then .error "AssertionError: angles missing"
  else if ¬ bonds.Nodup then .error "AssertionError: duplicate bonds"
  else if ¬ angles.Nodup then .error "AssertionError: duplicate angles"
  else
    match convPairs m.atoms bonds with
    | .error e => .error e
    | .ok bondsIds =>
      match convTriples m.atoms angles with
      | .error e => .error e
      | .ok anglesIds =>
        match mapExcept (fun b =>
            match pyIndex (sortPairs bondsIds) b with
            | some i => .ok i
            | none => .error "ValueError: bond not in list") m.bonds with
        | .error e => .error e
        | .ok bond_idxs =>
          match mapExcept (fun a =>
              match pyIndex (canonTriples anglesIds) a with
              | some i => .ok i
              | none => .error "ValueError: angle not in list") m.angles with
          | .error e => .error e
          | .ok angle_idxs =>
            .ok (bond_idxs.map (fun i => bond_eq.getD i 0),
                 angle_idxs.map (fun i => angle_eq.getD i 0),
                 bond_idxs.map (fun i => bond_k.getD i 0),
                 angle_idxs.map (fun i => angle_k.getD i 0))

/-- Parameters.from_lists (Parameters.py lines 220-401): canonical sort of
the molecule unless already sorted, length asserts, the bond and angle
stage, the torsion loop, then assembly of the canonical record. -/
def Parameters.from_lists (mol : Molecule) (bonds : List (Int × Int))
    (angles : List (Int × Int × Int)) (torsions : List (Int × Int × Int × Int))
    (bond_eq angle_eq bond_k angle_k torsion_ks torsion_phases : List ℚ)
    (torsion_periodicities : List Int)
    (allow_skip_improper : Bool) (mol_is_sorted : Bool) : Except String Parameters :=
  let m := if mol_is_sorted then mol else mol.sort
  if bonds.length = bond_eq.length ∧ bond_eq.length = bond_k.length then
    if angles.length = angle_eq.length ∧ angle_eq.length = angle_k.length then
      if torsions.length = torsion_ks.length then
        match bondAngleStage m bonds angles bond_eq angle_eq bond_k angle_k with
        | .error e => .error e
        | .ok (bond_eq2, angle_eq2, bond_k2, angle_k2) =>
          match processTorsions m allow_skip_improper (initState m)
              (zip4 torsions torsion_ks torsion_phases torsion_periodicities) with
          | .error e => .error e
          | .ok st => .ok {
              atoms := m.atoms, bonds := m.bonds, bond_k := bond_k2, bond_eq := bond_eq2,
              angles := m.angles, angle_k := angle_k2, angle_eq := angle_eq2,
              propers := m.propers, proper_ks := st.proper_ks, proper_phases := st.proper_phases,
              impropers := some m.impropers, improper_ks := some st.improper_ks,
              improper_phases := some st.improper_phases }
      else .error "AssertionError: torsion lists must have the same length"
    else .error "AssertionError: angle lists must have the same length"
  else .error "AssertionError: bond lists must have the same length"

/-- A value stored in the named-array mapping produced by to_dict. Numpy
arrays of the various shapes and python None are the only values the
source ever places there. -/
inductive PValue where
  | vInts : List Int → PValue
  | vPairs : List (Int × Int) → PValue
  | vTriples : List (Int × Int × Int) → PValue
  | vQuads : List (Int × Int × Int × Int) → PValue
  | vFloats : List ℚ → PValue
  | vMat : List (List ℚ) → PValue
  | vNone : PValue
deriving DecidableEq, Repr

/-- Encode an optional array, python None becoming vNone. -/
def encOptQuads : Option (List (Int × Int × Int × Int)) → PValue
  | none => .vNone
  | some v => .vQuads v

/-- Encode an optional 2d array, python None becoming vNone. -/
def encOptMat : Option (List (List ℚ)) → PValue
  | none => .vNone
  | some v => .vMat v

/-- Parameters.to_dict (Parameters.py lines 403-424): the named-array
mapping; the improper keys are present only when impropers is not None. -/
def Parameters.to_dict (p : Parameters) : List (String × PValue) :=
  let base : List (String × PValue) :=
    [("atoms", .vInts p.atoms), ("bonds", .vPairs p.bonds),
     ("bond_k", .vFloats p.bond_k), ("bond_eq", .vFloats p.bond_eq),
     ("angles", .vTriples p.angles), ("angle_k", .vFloats p.angle_k),
     ("angle_eq", .vFloats p.angle_eq), ("propers", .vQuads p.propers),
     ("proper_ks", .vMat p.proper_ks), ("proper_phases", .vMat p.proper_phases)]
  match p.impropers with
  | none => base
  | some imps =>
    base ++ [("impropers", .vQuads imps), ("improper_ks", encOptMat p.improper_ks),
             ("improper_phases", encOptMat p.improper_phases)]

/-- The 13 dataclass field names of Parameters. -/
def paramFields : List String :=
  ["atoms", "bonds", "bond_k", "bond_eq", "angles", "angle_k", "angle_eq",
   "propers", "proper_ks", "proper_phases", "impropers", "improper_ks", "improper_phases"]

/-- Parameters.from_dict (Parameters.py lines 427-432): cls (**array_dict).
Python keyword expansion raises TypeError when a key is not a dataclass
field or when any of the 13 required fields is missing. The decoders below
additionally require the stored value to have the field shape; every
mapping produced by to_dict satisfies this, so the model is faithful on
the round-trip inputs the source feeds it. -/
def Parameters.from_dict (d : List (String × PValue)) : Except String Parameters :=
  if ¬ d.all (fun kv => paramFields.contains kv.1) then
    .error "TypeError: unexpected keyword argument"
  else
    match d.lookup "atoms", d.lookup "bonds", d.lookup "bond_k", d.lookup "bond_eq",
        d.lookup "angles", d.lookup "angle_k", d.lookup "angle_eq", d.lookup "propers",
        d.lookup "proper_ks", d.lookup "proper_phases", d.lookup "impropers",
        d.lookup "improper_ks", d.lookup "improper_phases" with
    | some (.vInts atoms), some (.vPairs bonds), some (.vFloats bond_k),
      some (.vFloats bond_eq), some (.vTriples angles), some (.vFloats angle_k),
      some (.vFloats angle_eq), some (.vQuads propers), some (.vMat proper_ks),
      some (.vMat proper_phases), some impv, some ikv, some ipv =>
      match impv, ikv, ipv with
      | .vQuads imps, .vMat iks, .vMat iph =>
        .ok { atoms := atoms, bonds := bonds, bond_k := bond_k, bond_eq := bond_eq,
              angles := angles, angle_k := angle_k, angle_eq := angle_eq,
              propers := propers, proper_ks := proper_ks, proper_phases := proper_phases,
              impropers := some imps, improper_ks := some iks, improper_phases := some iph }
      | .vQuads imps, .vMat iks, .vNone =>
        .ok { atoms := atoms, bonds := bonds, bond_k := bond_k, bond_eq := bond_eq,
              angles := angles, angle_k := angle_k, angle_eq := angle_eq,
              propers := propers, proper_ks := proper_ks, proper_phases := proper_phases,
              impropers := some imps, improper_ks := some iks, improper_phases := none }
      | .vQuads imps, .vNone, .vMat iph =>
        .ok { atoms := atoms, bonds := bonds, bond_k := bond_k, bond_eq := bond_eq,
              angles := angles, angle_k := angle_k, angle_eq := angle_eq,
              propers := propers, proper_ks := proper_ks, proper_phases := proper_phases,
              impropers := some imps, improper_ks := none, improper_phases := some iph }
      | .vQuads imps, .vNone, .vNone =>
        .ok { atoms := atoms, bonds := bonds, bond_k := bond_k, bond_eq := bond_eq,
              angles := angles, angle_k := angle_k, angle_eq := angle_eq,
              propers := propers, proper_ks := proper_ks, proper_phases := proper_phases,
              impropers := some imps, improper_ks := none, improper_phases := none }
      | .vNone, .vMat iks, .vMat iph =>
        .ok { atoms := atoms, bonds := bonds, bond_k := bond_k, bond_eq := bond_eq,
              angles := angles, angle_k := angle_k, angle_eq := angle_eq,
              propers := propers, proper_ks := proper_ks, proper_phases := proper_phases,
              impropers := none, improper_ks := some iks, improper_phases := some iph }
      | .vNone, .vMat iks, .vNone =>
        .ok { atoms := atoms, bonds := bonds, bond_k := bond_k, bond_eq := bond_eq,
              angles := angles, angle_k := angle_k, angle_eq := angle_eq,
              propers := propers, proper_ks := proper_ks, proper_phases := proper_phases,
              impropers := none, improper_ks := some iks, improper_phases := none }
      | .vNone, .vNone, .vMat iph =>
        .ok { atoms := atoms, bonds := bonds, bond_k := bond_k, bond_eq := bond_eq,
              angles := angles, angle_k := angle_k, angle_eq := angle_eq,
              propers := propers, proper_ks := proper_ks, proper_phases := proper_phases,
              impropers := none, improper_ks := none, improper_phases := some iph }
      | .vNone, .vNone, .vNone =>
        .ok { atoms := atoms, bonds := bonds, bond_k := bond_k, bond_eq := bond_eq,
              angles := angles, angle_k := angle_k, angle_eq := angle_eq,
              propers := propers, proper_ks := proper_ks, proper_phases := proper_phases,
              impropers := none, improper_ks := none, improper_phases := none }
      | _, _, _ => .error "TypeError: bad field value"
    | _, _, _, _, _, _, _, _, _, _, _, _, _ => .error "TypeError: missing required argument"

/-- Modelled from the spec: get_isomorphisms and get_isomorphic_permutation
(grappa.utils.graph_utils) are not under src/. Per the spec (section 4.5)
the matcher maps the first candidate to the identity and requests an
isomorphism from an external oracle for the remaining candidates; the
oracle is modelled as the list of matched index pairs it returns together
with the permutation it computes for a pair of graphs. -/
structure IsoOracle where
  isomorphisms : List (Nat × Nat)
  perm : Nat → Nat → List Nat

/-- Python dict assignment on an association list: replace the value at an
existing key, otherwise append the new key. -/
def dictSet : List (Nat × List Nat) → Nat → List Nat → List (Nat × List Nat)
  | [], k, v => [(k, v)]
  | (k2, v2) :: t, k, v => if k2 = k then (k, v) :: t else (k2, v2) :: dictSet t k v

/-- match_molecules (dataset_builder.py lines 25-51): the first molecule is
mapped to the identity permutation over its atoms; with more than one
molecule, each oracle-matched pair (idx1, idx2) stores the oracle
permutation under key idx2. An empty input raises IndexError. -/
def match_molecules (molecules : List Molecule) (oracle : IsoOracle) :
    Except String (List (Nat × List Nat)) :=
  match molecules with
  | [] => .error "IndexError"
  | m0 :: rest =>
    let permutations : List (Nat × List Nat) := [(0, List.range m0.atoms.length)]
    if (m0 :: rest).length = 1 then .ok permutations
    else
      .ok (oracle.isomorphisms.foldl
        (fun acc pr => dictSet acc pr.2 (oracle.perm pr.1 pr.2)) permutations)

/-- The acceptance rule for one improper candidate, as the spec words it:
the candidate is accepted when its permuted tuple occurs in the canonical
impropers list, a sign -1 candidate only when the given phase is within
tolerance of 0 or pi. Returns (sign, matched row index). -/
def candGate (mol : Molecule) (t : Int × Int × Int × Int) (φ : ℚ)
    (c : Int × (Nat × Nat × Nat × Nat)) : Option (Int × Nat) :=
  match pyIndex mol.impropers (permute4 t c.2) with
  | none => none
  | some idx =>
    if npIsClose φ 0 (1 / 100) = false ∧ npIsClose φ npPi (1 / 100) = false ∧ c.1 = -1 then
      none
    else some (c.1, idx)

/-- First-match-wins search over the four candidate permutations in source
order, with the acceptance rule of candGate applied at the given phase.
Feeding the raw (pre-normalization) phase gives the claimed reading of the
spec; the code itself gates on the sign-normalized phase. -/
def firstAccepted (mol : Molecule) (t : Int × Int × Int × Int) (φ : ℚ) : Option (Int × Nat) :=
  improperCandidates.findSome? (candGate mol t φ)

/-- A concrete 4-atom chain molecule (atom ids equal to indices) used in the concrete claim instances: one proper torsion, no improper. -/
def pathMol : Molecule :=
  { atoms := [0, 1, 2, 3],
    bonds := [(0, 1), (1, 2), (2, 3)],
    angles := [(0, 1, 2), (1, 2, 3)],
    propers := [(0, 1, 2, 3)],
    impropers := [] }

/-- A concrete 4-atom star molecule: atom id 30 is bonded to 10, 20 and 40, giving three canonical impropers (central atom at slot 2, all cyclic permutations of the substituents) and no proper torsion. -/
def starMol : Molecule :=
  { atoms := [10, 20, 30, 40],
    bonds := [(10, 30), (20, 30), (30, 40)],
    angles := [(10, 30, 20), (10, 30, 40), (20, 30, 40)],
    propers := [],
    impropers := [(10, 20, 30, 40), (20, 40, 30, 10), (40, 10, 30, 20)] }

/-- A Parameters record whose impropers field is None. -/
def pNoneEx : Parameters :=
  { atoms := [0], bonds := [], bond_k := [], bond_eq := [], angles := [], angle_k := [],
    angle_eq := [], propers := [], proper_ks := [], proper_phases := [],
    impropers := none, improper_ks := none, improper_phases := none }

/-- A torsion state in which the first improper row already has a nonzero entry at column 0. -/
def dupImproperState : TorsionState :=
  { proper_ks := [], proper_phases := [],
    improper_ks := [[1, 0, 0, 0, 0, 0], [0, 0, 0, 0, 0, 0], [0, 0, 0, 0, 0, 0]],
    improper_phases := [[0, 0, 0, 0, 0, 0], [0, 0, 0, 0, 0, 0], [0, 0, 0, 0, 0, 0]] }

/-- A torsion state in which the single proper row already holds coefficient 1 with phase 0 at column 0. -/
def properDupState : TorsionState :=
  { proper_ks := [[1, 0, 0, 0, 0, 0]], proper_phases := [[0, 0, 0, 0, 0, 0]],
    improper_ks := [], improper_phases := [] }

/-- Every entry of every row of a 2d array is non-negative. -/
def Nonneg2 (m : List (List ℚ)) : Prop := ∀ r ∈ m, ∀ x ∈ r, 0 ≤ x

/-- The canonical record produced by the additive-accumulation run on pathMol: two raw proper entries with coefficients 1 and 2 and phase 0 sum to 3. -/
def cAccumParams : Parameters :=
  { atoms := [0, 1, 2, 3], bonds := [(0, 1), (1, 2), (2, 3)],
    bond_k := [1, 1, 1], bond_eq := [1, 1, 1],
    angles := [(0, 1, 2), (1, 2, 3)], angle_k := [1, 1], angle_eq := [1, 1],
    propers := [(0, 1, 2, 3)],
    proper_ks := [[3, 0, 0, 0, 0, 0]], proper_phases := [[0, 0, 0, 0, 0, 0]],
    impropers := some [], improper_ks := some [], improper_phases := some [] }

/-- A Parameters record with impropers present, used for the round-trip witness. -/
def cRoundTripParams : Parameters :=
  { atoms := [10, 20, 30, 40], bonds := [(10, 30), (20, 30), (30, 40)],
    bond_k := [1, 2, 3], bond_eq := [4, 5, 6],
    angles := [(10, 30, 20), (10, 30, 40), (20, 30, 40)], angle_k := [1, 1, 1],
    angle_eq := [2, 2, 2], propers := [],
    proper_ks := [], proper_phases := [],
    impropers := some [(10, 20, 30, 40)], improper_ks := some [[1, 0, 0, 0, 0, 0]],
    improper_phases := some [[0, 0, 0, 0, 0, 0]] }

theorem lookup_dictSet_ne (d : List (Nat × List Nat)) (k : Nat) (v : List Nat) (hk : k ≠ 0) :
    (dictSet d k v).lookup 0 = d.lookup 0 := by
  have hbe : (0 == k) = false := beq_eq_false_iff_ne.mpr (Ne.symm hk)
  induction d with
  | nil => simp [dictSet, List.lookup, hbe]
  | cons hd tl ih =>
    obtain ⟨k2, v2⟩ := hd
    unfold dictSet
    split
    · next heq => subst heq; simp [List.lookup, hbe]
    · cases h02 : (0 == k2) <;> simp [List.lookup, h02, ih]

/-- Claim C9: from_lists checks bond duplicates on the raw index tuples before id conversion and before canonical reordering, so a raw list holding the same physical bond in both orientations (2,3) and (3,2) is accepted rather than rejected as duplicate, and the subsequent lookup silently takes the parameters of the first occurrence in the canonically sorted list: bond_k is 30, from the (2,3) entry, not 40. -/
theorem c9_duplicate_check_on_raw_tuples :
    ([(0,1),(1,2),(2,3),(3,2)] : List (Int × Int)).Nodup ∧
    (exOk (Parameters.from_lists pathMol [(0,1),(1,2),(2,3),(3,2)] [(0,1,2),(1,2,3)] []
      [1,2,3,4] [1,1] [10,20,30,40] [1,1] [] [] [] false true)).map Parameters.bond_k
      = some [10,20,30] := by decide

/-- Claim C7, as stated, is false: for a Parameters object with impropers = None, to_dict omits the three improper keys and from_dict fails because three required dataclass fields are missing. -/
theorem c7_counterexample : exErr (Parameters.from_dict (Parameters.to_dict pNoneEx)) = true := by decide

/-- Claim C7, amended: for every Parameters object whose impropers field is not None, from_dict applied to to_dict reproduces the object exactly. -/
theorem c7_round_trip : ∀ (p : Parameters) (v : List (Int × Int × Int × Int)),
    p.impropers = some v → Parameters.from_dict (Parameters.to_dict p) = .ok p := by
  intro p v h
  obtain ⟨a, b, bk, be, an, ak, ae, pr, pk, pp, imp, iks, iph⟩ := p
  simp only at h
  subst h
  cases iks <;> cases iph <;> rfl

/-- Claim C10: for a Parameters object whose impropers field is None, to_dict contains no impropers, improper_ks or improper_phases key, and from_dict applied to that mapping fails to construct a Parameters object; the round trip therefore succeeds only when impropers is present. -/
theorem c10_missing_improper_keys : ∀ (p : Parameters), p.impropers = none →
    (p.to_dict.lookup "impropers" = none ∧ p.to_dict.lookup "improper_ks" = none ∧
      p.to_dict.lookup "improper_phases" = none) ∧
    exErr (Parameters.from_dict p.to_dict) = true := by
  intro p h
  obtain ⟨a, b, bk, be, an, ak, ae, pr, pk, pp, imp, iks, iph⟩ := p
  simp only at h
  subst h
  exact ⟨⟨rfl, rfl, rfl⟩, rfl⟩

theorem foldl_dictSet_lookup0 (f : Nat → Nat → List Nat) (l : List (Nat × Nat))
    (h : ∀ pr ∈ l, pr.2 ≠ 0) (acc : List (Nat × List Nat)) :
    (l.foldl (fun a pr => dictSet a pr.2 (f pr.1 pr.2)) acc).lookup 0 = acc.lookup 0 := by
  induction l generalizing acc with
  | nil => rfl
  | cons hd tl ih =>
    simp only [List.foldl]
    rw [ih (fun pr hpr => h pr (List.mem_cons_of_mem _ hpr)),
      lookup_dictSet_ne _ _ _ (h hd (List.mem_cons_self _ _))]

/-- Claim C8: match_molecules maps the first molecule of a non-empty list to the identity permutation over its atoms. The isomorphism oracle is modelled from the spec, which consults it only for the remaining candidates, stated here as the hypothesis that every reported pair has a nonzero second index. -/
theorem c8_first_molecule_identity : ∀ (molecules : List Molecule) (oracle : IsoOracle) (m0 : Molecule)
    (rest : List Molecule), molecules = m0 :: rest →
    (∀ pr ∈ oracle.isomorphisms, pr.2 ≠ 0) →
    ∃ out, match_molecules molecules oracle = .ok out ∧
      out.lookup 0 = some (List.range m0.atoms.length) := by
  intro molecules oracle m0 rest hm h
  subst hm
  unfold match_molecules
  dsimp only
  by_cases hone : (m0 :: rest).length = 1
  · rw [if_pos hone]
    exact ⟨_, rfl, by simp [List.lookup]⟩
  · rw [if_neg hone]
    refine ⟨_, rfl, ?_⟩
    rw [foldl_dictSet_lookup0 _ _ h]
    simp [List.lookup]

/-- Witness for claim C8 at a concrete two-molecule list with an oracle reporting the pair (0,1). -/
theorem c8_first_molecule_identity_witness :
    ∃ out, match_molecules [pathMol, starMol] ⟨[(0, 1)], fun _ _ => [9, 9, 9, 9]⟩ = .ok out ∧
      out.lookup 0 = some (List.range pathMol.atoms.length) :=
  c8_first_molecule_identity _ _ pathMol [starMol] rfl (by decide)

-- improper loop lemmas

theorem improperLoop_cons (mol : Molecule) (s : TorsionState) (t : Int × Int × Int × Int)
    (tk phase : ℚ) (per : Int) (sign : Int) (perm : Nat × Nat × Nat × Nat)
    (rest : List (Int × (Nat × Nat × Nat × Nat))) :
    improperLoop mol s t tk phase per ((sign, perm) :: rest) =
      (match candGate mol t phase (sign, perm) with
      | none => improperLoop mol s t tk phase per rest
      | some (sg, idx) =>
        if npGet2 s.improper_ks idx (per - 1) ≠ 0 then
          .error "ValueError: the torsion appears twice"
        else
          .ok (true,
            { s with improper_ks := npSet2 s.improper_ks idx (per - 1) ((sg : ℚ) * tk),
                     improper_phases := npSet2 s.improper_phases idx (per - 1) phase })) := by
  rw [improperLoop]
  unfold candGate
  dsimp only
  cases pyIndex mol.impropers (permute4 t perm) with
  | none => rfl
  | some i0 =>
    dsimp only
    by_cases hgate : npIsClose phase 0 (1 / 100) = false ∧
        npIsClose phase npPi (1 / 100) = false ∧ sign = -1
    · rw [if_pos hgate, if_pos hgate]
    · rw [if_neg hgate, if_neg hgate]

theorem improperLoop_accept (mol : Molecule) (t : Int × Int × Int × Int)
    (tk phase : ℚ) (per : Int) (cs : List (Int × (Nat × Nat × Nat × Nat)))
    (sg : Int) (idx : Nat)
    (hfind : cs.findSome? (candGate mol t phase) = some (sg, idx)) :
    ∀ s : TorsionState, npGet2 s.improper_ks idx (per - 1) = 0 →
    improperLoop mol s t tk phase per cs = .ok (true,
      { s with improper_ks := npSet2 s.improper_ks idx (per - 1) ((sg : ℚ) * tk),
               improper_phases := npSet2 s.improper_phases idx (per - 1) phase }) := by
  induction cs with
  | nil => simp [List.findSome?] at hfind
  | cons hd rest ih =>
    intro s hz
    obtain ⟨sign, perm⟩ := hd
    rw [improperLoop_cons]
    rw [List.findSome?_cons] at hfind
    cases hcg : candGate mol t phase (sign, perm) with
    | none =>
      rw [hcg] at hfind
      dsimp only at hfind
      exact ih hfind s hz
    | some pr =>
      rw [hcg] at hfind
      obtain ⟨sg0, idx0⟩ := pr
      dsimp only at hfind ⊢
      simp only [Option.some.injEq, Prod.mk.injEq] at hfind
      obtain ⟨h1, h2⟩ := hfind
      subst h1; subst h2
      rw [if_neg (by simp [hz])]

theorem improperLoop_reject (mol : Molecule) (t : Int × Int × Int × Int)
    (tk phase : ℚ) (per : Int) (cs : List (Int × (Nat × Nat × Nat × Nat)))
    (sg : Int) (idx : Nat)
    (hfind : cs.findSome? (candGate mol t phase) = some (sg, idx)) :
    ∀ s : TorsionState, npGet2 s.improper_ks idx (per - 1) ≠ 0 →
    improperLoop mol s t tk phase per cs = .error "ValueError: the torsion appears twice" := by
  induction cs with
  | nil => simp [List.findSome?] at hfind
  | cons hd rest ih =>
    intro s hz
    obtain ⟨sign, perm⟩ := hd
    rw [improperLoop_cons]
    rw [List.findSome?_cons] at hfind
    cases hcg : candGate mol t phase (sign, perm) with
    | none =>
      rw [hcg] at hfind
      dsimp only at hfind
      exact ih hfind s hz
    | some pr =>
      rw [hcg] at hfind
      obtain ⟨sg0, idx0⟩ := pr
      dsimp only at hfind ⊢
      simp only [Option.some.injEq, Prod.mk.injEq] at hfind
      obtain ⟨h1, h2⟩ := hfind
      subst h1; subst h2
      rw [if_pos hz]

theorem improperLoop_notfound (mol : Molecule) (t : Int × Int × Int × Int)
    (tk phase : ℚ) (per : Int) (cs : List (Int × (Nat × Nat × Nat × Nat)))
    (hfind : cs.findSome? (candGate mol t phase) = none) :
    ∀ s : TorsionState, improperLoop mol s t tk phase per cs = .ok (false, s) := by
  induction cs with
  | nil => intro s; rfl
  | cons hd rest ih =>
    intro s
    obtain ⟨sign, perm⟩ := hd
    rw [improperLoop_cons]
    rw [List.findSome?_cons] at hfind
    cases hcg : candGate mol t phase (sign, perm) with
    | none =>
      rw [hcg] at hfind
      dsimp only at hfind
      exact ih hfind s
    | some pr =>
      rw [hcg] at hfind
      dsimp only at hfind
      exact absurd hfind (by simp)

theorem improperLoop_preserves_proper (mol : Molecule) (t : Int × Int × Int × Int)
    (tk phase : ℚ) (per : Int) (cs : List (Int × (Nat × Nat × Nat × Nat))) :
    ∀ (s : TorsionState) (b : Bool) (s2 : TorsionState),
    improperLoop mol s t tk phase per cs = .ok (b, s2) →
    s2.proper_ks = s.proper_ks ∧ s2.proper_phases = s.proper_phases := by
  induction cs with
  | nil =>
    intro s b s2 h
    unfold improperLoop at h
    simp only [Except.ok.injEq, Prod.mk.injEq] at h
    rw [← h.2]
    exact ⟨rfl, rfl⟩
  | cons hd rest ih =>
    intro s b s2 h
    obtain ⟨sign, perm⟩ := hd
    rw [improperLoop_cons] at h
    cases hcg : candGate mol t phase (sign, perm) with
    | none =>
      rw [hcg] at h
      dsimp only at h
      exact ih s b s2 h
    | some pr =>
      rw [hcg] at h
      obtain ⟨sg0, idx0⟩ := pr
      dsimp only at h
      by_cases hz : npGet2 s.improper_ks idx0 (per - 1) ≠ 0
      · rw [if_pos hz] at h
        exact absurd h (by simp)
      · rw [if_neg hz] at h
        simp only [Except.ok.injEq, Prod.mk.injEq] at h
        rw [← h.2]
        exact ⟨rfl, rfl⟩

/-- Claim C1, amended: for a raw improper torsion with nonzero coefficient whose index tuple converts to atom ids, which the molecule classifies as improper with its central-atom slot on the same side as IMPROPER_CENTRAL_IDX, and whose periodicity is within bound, the per-torsion step of Parameters.from_lists tries the four candidate permutations (sign +1, identity), (sign +1, full reversal), (sign -1, swap of positions 1 and 2), (sign -1, reversal plus swap) in exactly that order, accepts the first candidate whose permuted tuple occurs in the canonical improper list -- a sign -1 candidate being acceptable only if the sign-normalized phase is within tolerance of 0 or pi -- and, the target cell being unoccupied, stores sign times the sign-normalized coefficient together with the sign-normalized phase at column periodicity - 1 of the matched improper row. -/
theorem c1_improper_resolution (mol : Molecule) (allow_skip_improper : Bool) (s : TorsionState)
    (torsion t : Int × Int × Int × Int) (k φ : ℚ) (per : Int) (central : Nat)
    (sg : Int) (idx : Nat)
    (hk : k ≠ 0)
    (hconv : convertIds mol.atoms torsion = some t)
    (himp : mol.is_improper t = (true, central))
    (hside : ¬ sideIncompatible central)
    (hper : per ≤ (N_PERIODICITY_IMPROPER : Int))
    (hfind : firstAccepted mol t (normPhase k φ) = some (sg, idx))
    (hz : npGet2 s.improper_ks idx (per - 1) = 0) :
    processTorsion mol allow_skip_improper s torsion k φ per = .ok
      { s with improper_ks := npSet2 s.improper_ks idx (per - 1) ((sg : ℚ) * normK k),
               improper_phases := npSet2 s.improper_phases idx (per - 1) (normPhase k φ) } := by
  unfold firstAccepted at hfind
  unfold processTorsion
  rw [if_neg hk, hconv]
  dsimp only
  rw [himp]
  dsimp only
  rw [if_neg (not_lt.mpr hper)]
  rw [if_neg hside]
  rw [improperLoop_accept mol t (normK k) (normPhase k φ) per improperCandidates sg idx hfind s hz]

/-- Claim C4, amended: when the improper tuple matched by the permutation search already has a nonzero entry at the target periodicity column, the per-torsion step of Parameters.from_lists raises a fatal duplicate-assignment error with no additive accumulation, regardless of the allow_skip_improper setting. -/
theorem c4_improper_duplicate_fatal (mol : Molecule) (allow_skip_improper : Bool) (s : TorsionState)
    (torsion t : Int × Int × Int × Int) (k φ : ℚ) (per : Int) (central : Nat)
    (sg : Int) (idx : Nat)
    (hk : k ≠ 0)
    (hconv : convertIds mol.atoms torsion = some t)
    (himp : mol.is_improper t = (true, central))
    (hside : ¬ sideIncompatible central)
    (hper : per ≤ (N_PERIODICITY_IMPROPER : Int))
    (hfind : firstAccepted mol t (normPhase k φ) = some (sg, idx))
    (hz : npGet2 s.improper_ks idx (per - 1) ≠ 0) :
    processTorsion mol allow_skip_improper s torsion k φ per =
      .error "ValueError: the torsion appears twice" := by
  unfold firstAccepted at hfind
  unfold processTorsion
  rw [if_neg hk, hconv]
  dsimp only
  rw [himp]
  dsimp only
  rw [if_neg (not_lt.mpr hper)]
  rw [if_neg hside]
  rw [improperLoop_reject mol t (normK k) (normPhase k φ) per improperCandidates sg idx hfind s hz]

/-- Claim C5: for a raw improper torsion whose central-atom slot lies on the opposite side (endpoint slots 0,3 versus inner slots 1,2) from the configured IMPROPER_CENTRAL_IDX, the per-torsion step of Parameters.from_lists silently skips the term when allow_skip_improper is true, leaving the state unchanged -- so the term can be removed from the processed list without changing the outcome -- and raises a fatal error when allow_skip_improper is false. -/
theorem c5_incompatible_central (mol : Molecule) (s : TorsionState)
    (torsion t : Int × Int × Int × Int) (k φ : ℚ) (per : Int) (central : Nat)
    (hk : k ≠ 0)
    (hconv : convertIds mol.atoms torsion = some t)
    (himp : mol.is_improper t = (true, central))
    (hside : sideIncompatible central)
    (hper : per ≤ (N_PERIODICITY_IMPROPER : Int)) :
    processTorsion mol true s torsion k φ per = .ok s ∧
    processTorsion mol false s torsion k φ per =
      .error "RuntimeError: incompatible central atom position" ∧
    ∀ (l1 l2 : List ((Int × Int × Int × Int) × ℚ × ℚ × Int)) (s0 : TorsionState),
      processTorsions mol true s0 (l1 ++ (torsion, k, φ, per) :: l2) =
        processTorsions mol true s0 (l1 ++ l2) := by
  have hskip : ∀ s1 : TorsionState, processTorsion mol true s1 torsion k φ per = .ok s1 := by
    intro s1
    unfold processTorsion
    rw [if_neg hk, hconv]
    dsimp only
    rw [himp]
    dsimp only
    rw [if_neg (not_lt.mpr hper)]
    rw [if_pos hside]
    rfl
  have herr : processTorsion mol false s torsion k φ per =
      .error "RuntimeError: incompatible central atom position" := by
    unfold processTorsion
    rw [if_neg hk, hconv]
    dsimp only
    rw [himp]
    dsimp only
    rw [if_neg (not_lt.mpr hper)]
    rw [if_pos hside]
    rfl
  refine ⟨hskip s, herr, ?_⟩
  intro l1 l2 s0
  induction l1 generalizing s0 with
  | nil =>
    simp only [List.nil_append]
    conv_lhs => rw [processTorsions]
    rw [hskip s0]
  | cons hd tl ih =>
    obtain ⟨t4, k4, φ4, p4⟩ := hd
    simp only [List.cons_append]
    unfold processTorsions
    cases processTorsion mol true s0 t4 k4 φ4 p4 with
    | error e => rfl
    | ok s1 => exact ih s1

/-- Claim C3: when the per-torsion step of Parameters.from_lists meets a raw proper torsion whose canonical tuple already has a nonzero entry at its periodicity column, it raises a fatal error if the normalized phase differs from the stored phase, and adds the new normalized coefficient to the stored one if the phases agree. -/
theorem c3_proper_duplicate (mol : Molecule) (allow_skip_improper : Bool) (s : TorsionState)
    (torsion t : Int × Int × Int × Int) (k φ : ℚ) (per : Int) (cpos : Nat) (i : Nat)
    (hk : k ≠ 0)
    (hconv : convertIds mol.atoms torsion = some t)
    (himp : mol.is_improper t = (false, cpos))
    (hper : per ≤ (N_PERIODICITY_PROPER : Int))
    (hidx : pyIndex mol.propers (canonProperT t) = some i)
    (hnz : npGet2 s.proper_ks i (per - 1) ≠ 0) :
    (normPhase k φ ≠ npGet2 s.proper_phases i (per - 1) →
      processTorsion mol allow_skip_improper s torsion k φ per =
        .error "RuntimeError: the torsion appears twice with different phases") ∧
    (normPhase k φ = npGet2 s.proper_phases i (per - 1) →
      processTorsion mol allow_skip_improper s torsion k φ per = .ok
        { s with proper_ks := npSet2 s.proper_ks i (per - 1) (npGet2 s.proper_ks i (per - 1) + normK k) }) := by
  constructor
  · intro hph
    unfold processTorsion
    rw [if_neg hk, hconv]
    dsimp only
    rw [himp]
    dsimp only
    rw [if_neg (not_lt.mpr hper), hidx]
    dsimp only
    rw [if_pos hnz, if_pos hph]
  · intro hph
    unfold processTorsion
    rw [if_neg hk, hconv]
    dsimp only
    rw [himp]
    dsimp only
    rw [if_neg (not_lt.mpr hper), hidx]
    dsimp only
    rw [if_pos hnz, if_neg (by simp [hph])]

/-- Witness for the amended claim C1: on the star molecule the raw tuple (1,0,2,3) with coefficient 1 and phase 0 is accepted through the (sign -1, reversal plus swap) candidate at row 2 and stores -1 with phase 0. -/
theorem c1_improper_resolution_witness :
    processTorsion starMol true (initState starMol) (1, 0, 2, 3) 1 0 1 = .ok
      { initState starMol with
        improper_ks := npSet2 (initState starMol).improper_ks 2 ((1 : Int) - 1) (((-1 : Int) : ℚ) * normK 1),
        improper_phases := npSet2 (initState starMol).improper_phases 2 ((1 : Int) - 1) (normPhase 1 0) } :=
  c1_improper_resolution starMol true (initState starMol) (1, 0, 2, 3) (20, 10, 30, 40) 1 0 1 2 (-1) 2
    (by decide) (by decide) (by decide) (by decide) (by decide) (by decide) (by decide)

/-- Claim C1, as stated, is false: the code gates sign -1 candidates on the sign-normalized phase, not on the raw phase. With raw coefficient -1 and raw phase npPi - 1/200 (within tolerance of pi), the rule as claimed accepts the (sign -1, reversal plus swap) candidate at row 2 and would store -1 there, but from_lists first normalizes the phase to 2 npPi - 1/200, which is near neither 0 nor pi, so it rejects every candidate and, with allow_skip_improper, stores nothing: the improper coefficient array stays all zero. -/
theorem c1_counterexample :
    firstAccepted starMol (20, 10, 30, 40) (npPi - 1 / 200) = some (-1, 2) ∧
    npIsClose (npPi - 1 / 200) npPi (1 / 100) = true ∧
    (exOk (Parameters.from_lists starMol [(0, 2), (1, 2), (2, 3)]
      [(0, 2, 1), (0, 2, 3), (1, 2, 3)] [(1, 0, 2, 3)]
      [1, 1, 1] [1, 1, 1] [1, 1, 1] [1, 1, 1] [-1] [npPi - 1 / 200] [1] true true)).map
      Parameters.improper_ks = some (some (zeros2 3 6)) ∧
    ((-1 : ℚ) * normK (-1) ≠ 0) := by decide

/-- Claim C2, as stated, is false for improper_ks: a raw improper that matches the canonical list only through a sign -1 permutation stores sign times the normalized coefficient, which is negative. Raw index tuple (1,0,2,3) on the star molecule matches only via the (sign -1, reversal plus swap) permutation and stores -1. -/
theorem c2_counterexample :
    (exOk (Parameters.from_lists starMol [(0, 2), (1, 2), (2, 3)]
      [(0, 2, 1), (0, 2, 3), (1, 2, 3)] [(1, 0, 2, 3)]
      [1, 1, 1] [1, 1, 1] [1, 1, 1] [1, 1, 1] [1] [0] [1] false true)).map
      Parameters.improper_ks =
      some (some [[0, 0, 0, 0, 0, 0], [0, 0, 0, 0, 0, 0], [-1, 0, 0, 0, 0, 0]]) ∧
    ((-1 : ℚ) < 0) := by decide

/-- Claim C4, as stated, is false in its skip-policy clause: with allow_skip_improper = true, a duplicate improper assignment still raises, so from_lists fails on two identical raw improper entries even though the skip policy is configured. -/
theorem c4_counterexample :
    exErr (Parameters.from_lists starMol [(0, 2), (1, 2), (2, 3)]
      [(0, 2, 1), (0, 2, 3), (1, 2, 3)] [(0, 1, 2, 3), (0, 1, 2, 3)]
      [1, 1, 1] [1, 1, 1] [1, 1, 1] [1, 1, 1] [1, 1] [0, 0] [1, 1] true true) = true := by decide

/-- Witness for the amended claim C4: on the star molecule with the first improper row already populated, the duplicate raises even with allow_skip_improper = true. -/
theorem c4_improper_duplicate_fatal_witness :
    processTorsion starMol true dupImproperState (0, 1, 2, 3) 1 0 1 =
      .error "ValueError: the torsion appears twice" :=
  c4_improper_duplicate_fatal starMol true dupImproperState (0, 1, 2, 3) (10, 20, 30, 40) 1 0 1 2 1 0
    (by decide) (by decide) (by decide) (by decide) (by decide) (by decide) (by decide)

/-- Witness for claim C5: on the star molecule the raw tuple (2,0,1,3) puts the central atom at slot 0 while IMPROPER_CENTRAL_IDX is 2; with the skip policy the run succeeds with all-zero improper arrays, without it from_lists fails. -/
theorem c5_incompatible_central_witness :
    processTorsion starMol true (initState starMol) (2, 0, 1, 3) 1 0 1 = .ok (initState starMol) ∧
    processTorsion starMol false (initState starMol) (2, 0, 1, 3) 1 0 1 =
      .error "RuntimeError: incompatible central atom position" ∧
    exErr (Parameters.from_lists starMol [(0, 2), (1, 2), (2, 3)]
      [(0, 2, 1), (0, 2, 3), (1, 2, 3)] [(2, 0, 1, 3)]
      [1, 1, 1] [1, 1, 1] [1, 1, 1] [1, 1, 1] [1] [0] [1] false true) = true ∧
    (exOk (Parameters.from_lists starMol [(0, 2), (1, 2), (2, 3)]
      [(0, 2, 1), (0, 2, 3), (1, 2, 3)] [(2, 0, 1, 3)]
      [1, 1, 1] [1, 1, 1] [1, 1, 1] [1, 1, 1] [1] [0] [1] true true)).map
      Parameters.improper_ks = some (some (zeros2 3 6)) := by
  have h := c5_incompatible_central starMol (initState starMol) (2, 0, 1, 3) (30, 10, 20, 40) 1 0 1 0
    (by decide) (by decide) (by decide) (by decide) (by decide)
  exact ⟨h.1, h.2.1, by decide, by decide⟩

/-- Witness for claim C3 at the concrete accumulation scenario: on the chain molecule, a second raw entry for the same tuple and periodicity with phase 0 accumulates (1 then 2 gives 3, also at the from_lists level), and a second entry with a different phase is fatal. -/
theorem c3_proper_duplicate_witness :
    processTorsion pathMol false properDupState (0, 1, 2, 3) 2 0 1 = .ok
      { properDupState with
        proper_ks := npSet2 properDupState.proper_ks 0 ((1 : Int) - 1)
          (npGet2 properDupState.proper_ks 0 ((1 : Int) - 1) + normK 2) } ∧
    processTorsion pathMol false properDupState (0, 1, 2, 3) 2 (1 / 2) 1 =
      .error "RuntimeError: the torsion appears twice with different phases" ∧
    (exOk (Parameters.from_lists pathMol [(0, 1), (1, 2), (2, 3)] [(0, 1, 2), (1, 2, 3)]
      [(0, 1, 2, 3), (0, 1, 2, 3)] [1, 1, 1] [1, 1] [1, 1, 1] [1, 1] [1, 2] [0, 0] [1, 1]
      false true)).map Parameters.proper_ks = some [[3, 0, 0, 0, 0, 0]] := by
  refine ⟨?_, ?_, by decide⟩
  · exact (c3_proper_duplicate pathMol false properDupState (0, 1, 2, 3) (0, 1, 2, 3) 2 0 1 0 0
      (by decide) (by decide) (by decide) (by decide) (by decide) (by decide)).2 (by decide)
  · exact (c3_proper_duplicate pathMol false properDupState (0, 1, 2, 3) (0, 1, 2, 3) 2 (1 / 2) 1 0 0
      (by decide) (by decide) (by decide) (by decide) (by decide) (by decide)).1 (by decide)

theorem pyGet_mem {α : Type} {l : List α} {i : Int} {v : α} (h : pyGet l i = some v) : v ∈ l := by
  unfold pyGet at h
  split at h
  · exact List.get?_mem h
  · split at h
    · exact List.get?_mem h
    · exact absurd h (by simp)

theorem normK_nonneg (k : ℚ) : 0 ≤ normK k := by
  unfold normK
  split
  · next h => exact le_of_lt h
  · next h => simp [le_of_not_lt h]

theorem Nonneg2_zeros (n w : Nat) : Nonneg2 (zeros2 n w) := by
  intro r hr x hx
  rw [zeros2, List.mem_replicate] at hr
  rw [hr.2, List.mem_replicate] at hx
  rw [hx.2]

theorem Nonneg2_npGet2 {m : List (List ℚ)} (h : Nonneg2 m) (i : Nat) (j : Int) :
    0 ≤ npGet2 m i j := by
  unfold npGet2
  cases hg : m.get? i with
  | none => exact le_refl (0 : ℚ)
  | some row =>
    dsimp only
    cases hp : pyGet row j with
    | none => exact le_refl (0 : ℚ)
    | some v =>
      dsimp only
      exact h row (List.get?_mem hg) v (pyGet_mem hp)

theorem Nonneg2_npSet2 {m : List (List ℚ)} {v : ℚ} (h : Nonneg2 m) (hv : 0 ≤ v)
    (i : Nat) (j : Int) : Nonneg2 (npSet2 m i j v) := by
  unfold npSet2
  cases hg : m.get? i with
  | none => exact h
  | some row =>
    intro r hr x hx
    rcases List.mem_or_eq_of_mem_set hr with h1 | h2
    · exact h r h1 x hx
    · subst h2
      rcases List.mem_or_eq_of_mem_set hx with h3 | h4
      · exact h row (List.get?_mem hg) x h3
      · rw [h4]; exact hv

theorem processTorsion_nonneg (mol : Molecule) (allow_skip_improper : Bool) (s : TorsionState)
    (torsion : Int × Int × Int × Int) (k φ : ℚ) (per : Int) (s2 : TorsionState)
    (h : processTorsion mol allow_skip_improper s torsion k φ per = .ok s2)
    (hs : Nonneg2 s.proper_ks) : Nonneg2 s2.proper_ks := by
  unfold processTorsion at h
  by_cases hk : k = 0
  · rw [if_pos hk] at h
    simp only [Except.ok.injEq] at h
    rw [← h]; exact hs
  · rw [if_neg hk] at h
    cases hconv : convertIds mol.atoms torsion with
    | none => rw [hconv] at h; exact absurd h (by simp)
    | some t =>
      rw [hconv] at h
      dsimp only at h
      rcases himp : mol.is_improper t with ⟨b, central⟩
      rw [himp] at h
      cases b
      · dsimp only at h
        split at h
        · exact absurd h (by simp)
        · cases hpidx : pyIndex mol.propers (canonProperT t) with
          | none => rw [hpidx] at h; exact absurd h (by simp)
          | some i =>
            rw [hpidx] at h
            dsimp only at h
            split at h
            · split at h
              · exact absurd h (by simp)
              · simp only [Except.ok.injEq] at h
                rw [← h]
                exact Nonneg2_npSet2 hs
                  (add_nonneg (Nonneg2_npGet2 hs i (per - 1)) (normK_nonneg k)) i (per - 1)
            · simp only [Except.ok.injEq] at h
              rw [← h]
              exact Nonneg2_npSet2 hs (normK_nonneg k) i (per - 1)
      · dsimp only at h
        split at h
        · exact absurd h (by simp)
        · split at h
          · split at h
            · simp only [Except.ok.injEq] at h
              rw [← h]; exact hs
            · exact absurd h (by simp)
          · cases hloop : improperLoop mol s t (normK k) (normPhase k φ) per improperCandidates with
            | error e => rw [hloop] at h; exact absurd h (by simp)
            | ok pr =>
              rw [hloop] at h
              obtain ⟨b2, s3⟩ := pr
              cases b2
              · dsimp only at h
                split at h
                · simp only [Except.ok.injEq] at h
                  rw [← h]; exact hs
                · exact absurd h (by simp)
              · dsimp only at h
                simp only [Except.ok.injEq] at h
                rw [← h]
                rw [(improperLoop_preserves_proper mol t (normK k) (normPhase k φ) per
                  improperCandidates s true s3 hloop).1]
                exact hs

theorem processTorsions_nonneg (mol : Molecule) (allow_skip_improper : Bool)
    (l : List ((Int × Int × Int × Int) × ℚ × ℚ × Int)) :
    ∀ (s s2 : TorsionState), processTorsions mol allow_skip_improper s l = .ok s2 →
    Nonneg2 s.proper_ks → Nonneg2 s2.proper_ks := by
  induction l with
  | nil =>
    intro s s2 h hs
    unfold processTorsions at h
    simp only [Except.ok.injEq] at h
    rw [← h]; exact hs
  | cons hd tl ih =>
    intro s s2 h hs
    obtain ⟨t4, k4, φ4, p4⟩ := hd
    unfold processTorsions at h
    cases hpt : processTorsion mol allow_skip_improper s t4 k4 φ4 p4 with
    | error e => rw [hpt] at h; exact absurd h (by simp)
    | ok s1 =>
      rw [hpt] at h
      dsimp only at h
      exact ih s1 s2 h (processTorsion_nonneg mol allow_skip_improper s t4 k4 φ4 p4 s1 hpt hs)

/-- Claim C2, amended: every coefficient stored in proper_ks by Parameters.from_lists is non-negative, and a raw torsion with negative coefficient is absorbed by negating the coefficient and shifting its phase by pi modulo 2 pi before storage; improper coefficients, unlike proper ones, can be stored negated (see the counterexample). -/
theorem c2_nonneg_coefficients :
    (∀ (mol : Molecule) (bonds : List (Int × Int)) (angles : List (Int × Int × Int))
      (torsions : List (Int × Int × Int × Int))
      (bond_eq angle_eq bond_k angle_k torsion_ks torsion_phases : List ℚ)
      (torsion_periodicities : List Int) (allow_skip_improper mol_is_sorted : Bool)
      (p : Parameters),
      Parameters.from_lists mol bonds angles torsions bond_eq angle_eq bond_k angle_k
        torsion_ks torsion_phases torsion_periodicities allow_skip_improper mol_is_sorted =
        .ok p →
      ∀ r ∈ p.proper_ks, ∀ x ∈ r, 0 ≤ x) ∧
    (∀ k φ : ℚ, k < 0 → normK k = -k ∧ normPhase k φ = pymod (φ + npPi) (2 * npPi)) := by
  constructor
  · intro mol bonds angles torsions beq aeq bk ak tks tphs tpers skip sorted p h
    unfold Parameters.from_lists at h
    dsimp only at h
    split at h
    · split at h
      · split at h
        · split at h
          · exact absurd h (by simp)
          · split at h
            · exact absurd h (by simp)
            · simp only [Except.ok.injEq] at h
              rw [← h]
              dsimp only
              next st hst =>
                exact processTorsions_nonneg _ _ _ _ _ hst (Nonneg2_zeros _ _)
        · exact absurd h (by simp)
      · exact absurd h (by simp)
    · exact absurd h (by simp)
  · intro k φ hk
    constructor
    · unfold normK
      rw [if_neg (not_lt.mpr (le_of_lt hk))]
    · unfold normPhase
      rw [if_neg (not_lt.mpr (le_of_lt hk))]

theorem exErr_true_iff {α : Type} (x : Except String α) : exErr x = true ↔ ∃ e, x = .error e := by
  cases x <;> simp [exErr]

theorem mapExcept_err_of_mem {α β : Type} (f : α → Except String β) :
    ∀ (l : List α) (a : α), a ∈ l → ∀ e, f a = .error e → exErr (mapExcept f l) = true := by
  intro l
  induction l with
  | nil => intro a ha; cases ha
  | cons x t ih =>
    intro a ha e hf
    unfold mapExcept
    cases hx : f x with
    | error e2 => rfl
    | ok b =>
      rcases List.mem_cons.mp ha with h1 | h2
      · subst h1; rw [hx] at hf; cases hf
      · have h3 := ih a h2 e hf
        cases hmt : mapExcept f t with
        | error e3 => rfl
        | ok bs => rw [hmt] at h3; exact Bool.noConfusion h3

theorem mapExcept_ok_all {α β : Type} (f : α → Except String β) :
    ∀ l : List α, (∀ a ∈ l, ∃ b, f a = .ok b) → ∃ bs, mapExcept f l = .ok bs := by
  intro l
  induction l with
  | nil => intro _; exact ⟨[], rfl⟩
  | cons x t ih =>
    intro h
    obtain ⟨b, hb⟩ := h x (List.mem_cons_self _ _)
    obtain ⟨bs, hbs⟩ := ih (fun a ha => h a (List.mem_cons_of_mem _ ha))
    refine ⟨b :: bs, ?_⟩
    unfold mapExcept
    rw [hb, hbs]

theorem mapExcept_ok_get {α β : Type} (f : α → Except String β) :
    ∀ (l : List α) (bs : List β), mapExcept f l = .ok bs →
    bs.length = l.length ∧
    ∀ (i : Nat), i < l.length → ∀ (da : α) (db : β), f (l.getD i da) = .ok (bs.getD i db) := by
  intro l
  induction l with
  | nil =>
    intro bs h
    unfold mapExcept at h
    simp only [Except.ok.injEq] at h
    rw [← h]
    exact ⟨rfl, fun i hi => absurd hi (by simp)⟩
  | cons x t ih =>
    intro bs h
    unfold mapExcept at h
    cases hx : f x with
    | error e => rw [hx] at h; cases h
    | ok b =>
      rw [hx] at h
      dsimp only at h
      cases hmt : mapExcept f t with
      | error e => rw [hmt] at h; cases h
      | ok bs0 =>
        rw [hmt] at h
        dsimp only at h
        simp only [Except.ok.injEq] at h
        rw [← h]
        obtain ⟨hlen, hget⟩ := ih bs0 hmt
        constructor
        · simp [hlen]
        · intro i hi da db
          cases i with
          | zero => simpa using hx
          | succ n =>
            simp only [List.getD_cons_succ]
            exact hget n (by simpa using hi) da db

theorem getD_map {α β : Type} (f : α → β) :
    ∀ (l : List α) (i : Nat), i < l.length → ∀ (da : α) (db : β),
    (l.map f).getD i db = f (l.getD i da) := by
  intro l
  induction l with
  | nil => intro i hi; exact absurd hi (by simp)
  | cons x t ih =>
    intro i hi da db
    cases i with
    | zero => rfl
    | succ n =>
      simp only [List.map_cons, List.getD_cons_succ]
      exact ih n (by simpa using hi) da db

theorem pyIndex_some_spec {α : Type} [DecidableEq α] :
    ∀ (l : List α) (a : α) (j : Nat), pyIndex l a = some j →
    j < l.length ∧ ∀ d : α, l.getD j d = a := by
  intro l
  induction l with
  | nil => intro a j h; cases h
  | cons x t ih =>
    intro a j h
    unfold pyIndex at h
    by_cases hx : x = a
    · rw [if_pos hx] at h
      simp only [Option.some.injEq] at h
      rw [← h]
      exact ⟨by simp, fun d => hx⟩
    · rw [if_neg hx] at h
      cases hj : pyIndex t a with
      | none => rw [hj] at h; cases h
      | some j0 =>
        rw [hj] at h
        simp only [Option.map_some', Option.some.injEq] at h
        rw [← h]
        obtain ⟨h1, h2⟩ := ih a j0 hj
        exact ⟨by simpa using h1, fun d => h2 d⟩

theorem pyIndex_of_mem {α : Type} [DecidableEq α] :
    ∀ (l : List α) (a : α), a ∈ l → ∃ j, pyIndex l a = some j := by
  intro l
  induction l with
  | nil => intro a ha; cases ha
  | cons x t ih =>
    intro a ha
    unfold pyIndex
    by_cases hx : x = a
    · exact ⟨0, by rw [if_pos hx]⟩
    · rcases List.mem_cons.mp ha with h1 | h2
      · exact absurd h1.symm hx
      · obtain ⟨j, hj⟩ := ih a h2
        exact ⟨j + 1, by rw [if_neg hx, hj]; rfl⟩

theorem pyIndex_none_of_not_mem {α : Type} [DecidableEq α] :
    ∀ (l : List α) (a : α), ¬ a ∈ l → pyIndex l a = none := by
  intro l
  induction l with
  | nil => intro a _; rfl
  | cons x t ih =>
    intro a ha
    unfold pyIndex
    rw [if_neg (fun hx => ha (by rw [← hx]; exact List.mem_cons_self x t)),
      ih a (fun h2 => ha (List.mem_cons_of_mem _ h2))]
    rfl

theorem stage_err_asserts (m : Molecule) (bonds : List (Int × Int))
    (angles : List (Int × Int × Int)) (beq aeq bk ak : List ℚ)
    (h : bonds.length < m.bonds.length ∨ angles.length < m.angles.length ∨
      ¬ bonds.Nodup ∨ ¬ angles.Nodup) :
    exErr (bondAngleStage m bonds angles beq aeq bk ak) = true := by
  unfold bondAngleStage
  by_cases h1 : bonds.length < m.bonds.length
  · rw [if_pos h1]; rfl
  · rw [if_neg h1]
    by_cases h2 : angles.length < m.angles.length
    · rw [if_pos h2]; rfl
    · rw [if_neg h2]
      by_cases h3 : ¬ bonds.Nodup
      · rw [if_pos h3]; rfl
      · rw [if_neg h3]
        by_cases h4 : ¬ angles.Nodup
        · rw [if_pos h4]; rfl
        · rcases h with h | h | h | h
          exacts [absurd h h1, absurd h h2, absurd h h3, absurd h h4]

theorem stage_err_absentB (m : Molecule) (bonds : List (Int × Int))
    (angles : List (Int × Int × Int)) (beq aeq bk ak : List ℚ)
    (bIds : List (Int × Int)) (hcb : convPairs m.atoms bonds = .ok bIds)
    (b0 : Int × Int) (hb0 : b0 ∈ m.bonds) (habs : ¬ b0 ∈ sortPairs bIds) :
    exErr (bondAngleStage m bonds angles beq aeq bk ak) = true := by
  unfold bondAngleStage
  by_cases h1 : bonds.length < m.bonds.length
  · rw [if_pos h1]; rfl
  · rw [if_neg h1]
    by_cases h2 : angles.length < m.angles.length
    · rw [if_pos h2]; rfl
    · rw [if_neg h2]
      by_cases h3 : ¬ bonds.Nodup
      · rw [if_pos h3]; rfl
      · rw [if_neg h3]
        by_cases h4 : ¬ angles.Nodup
        · rw [if_pos h4]; rfl
        · rw [if_neg h4, hcb]
          dsimp only
          cases hca : convTriples m.atoms angles with
          | error e => rfl
          | ok aIds =>
            dsimp only
            have herr := mapExcept_err_of_mem
              (fun b => match pyIndex (sortPairs bIds) b with
                | some i => Except.ok i
                | none => Except.error "ValueError: bond not in list")
              m.bonds b0 hb0 "ValueError: bond not in list"
              (by dsimp only; rw [pyIndex_none_of_not_mem _ _ habs])
            obtain ⟨e, he⟩ := (exErr_true_iff _).mp herr
            rw [he]
            rfl

theorem stage_err_absentA (m : Molecule) (bonds : List (Int × Int))
    (angles : List (Int × Int × Int)) (beq aeq bk ak : List ℚ)
    (aIds : List (Int × Int × Int)) (hca : convTriples m.atoms angles = .ok aIds)
    (a0 : Int × Int × Int) (ha0 : a0 ∈ m.angles) (habs : ¬ a0 ∈ canonTriples aIds) :
    exErr (bondAngleStage m bonds angles beq aeq bk ak) = true := by
  unfold bondAngleStage
  by_cases h1 : bonds.length < m.bonds.length
  · rw [if_pos h1]; rfl
  · rw [if_neg h1]
    by_cases h2 : angles.length < m.angles.length
    · rw [if_pos h2]; rfl
    · rw [if_neg h2]
      by_cases h3 : ¬ bonds.Nodup
      · rw [if_pos h3]; rfl
      · rw [if_neg h3]
        by_cases h4 : ¬ angles.Nodup
        · rw [if_pos h4]; rfl
        · rw [if_neg h4]
          cases hcb : convPairs m.atoms bonds with
          | error e => rfl
          | ok bIds =>
            dsimp only
            rw [hca]
            dsimp only
            cases hmb : mapExcept (fun b => match pyIndex (sortPairs bIds) b with
                | some i => Except.ok i
                | none => Except.error "ValueError: bond not in list") m.bonds with
            | error e => rfl
            | ok bond_idxs =>
              dsimp only
              have herr := mapExcept_err_of_mem
                (fun a => match pyIndex (canonTriples aIds) a with
                  | some i => Except.ok i
                  | none => Except.error "ValueError: angle not in list")
                m.angles a0 ha0 "ValueError: angle not in list"
                (by dsimp only; rw [pyIndex_none_of_not_mem _ _ habs])
              obtain ⟨e, he⟩ := (exErr_true_iff _).mp herr
              rw [he]
              rfl

theorem stage_ok (m : Molecule) (bonds : List (Int × Int))
    (angles : List (Int × Int × Int)) (beq aeq bk ak : List ℚ)
    (bIds : List (Int × Int)) (aIds : List (Int × Int × Int))
    (hcb : convPairs m.atoms bonds = .ok bIds) (hca : convTriples m.atoms angles = .ok aIds)
    (h1 : ¬ bonds.length < m.bonds.length) (h2 : ¬ angles.length < m.angles.length)
    (h3 : bonds.Nodup) (h4 : angles.Nodup)
    (hmb : ∀ b ∈ m.bonds, b ∈ sortPairs bIds) (hma : ∀ a ∈ m.angles, a ∈ canonTriples aIds) :
    ∃ (bond_idxs angle_idxs : List Nat),
      mapExcept (fun b => match pyIndex (sortPairs bIds) b with
        | some i => Except.ok i
        | none => Except.error "ValueError: bond not in list") m.bonds = .ok bond_idxs ∧
      mapExcept (fun a => match pyIndex (canonTriples aIds) a with
        | some i => Except.ok i
        | none => Except.error "ValueError: angle not in list") m.angles = .ok angle_idxs ∧
      bondAngleStage m bonds angles beq aeq bk ak = .ok
        (bond_idxs.map (fun i => beq.getD i 0), angle_idxs.map (fun i => aeq.getD i 0),
         bond_idxs.map (fun i => bk.getD i 0), angle_idxs.map (fun i => ak.getD i 0)) := by
  obtain ⟨bond_idxs, hbi⟩ := mapExcept_ok_all
    (fun b => match pyIndex (sortPairs bIds) b with
      | some i => Except.ok i
      | none => Except.error "ValueError: bond not in list") m.bonds
    (fun b hb => by
      obtain ⟨j, hj⟩ := pyIndex_of_mem (sortPairs bIds) b (hmb b hb)
      exact ⟨j, by dsimp only; rw [hj]⟩)
  obtain ⟨angle_idxs, hai⟩ := mapExcept_ok_all
    (fun a => match pyIndex (canonTriples aIds) a with
      | some i => Except.ok i
      | none => Except.error "ValueError: angle not in list") m.angles
    (fun a ha => by
      obtain ⟨j, hj⟩ := pyIndex_of_mem (canonTriples aIds) a (hma a ha)
      exact ⟨j, by dsimp only; rw [hj]⟩)
  refine ⟨bond_idxs, angle_idxs, hbi, hai, ?_⟩
  unfold bondAngleStage
  rw [if_neg h1, if_neg h2, if_neg (not_not_intro h3), if_neg (not_not_intro h4), hcb]
  dsimp only
  rw [hca]
  dsimp only
  rw [hbi]
  dsimp only
  rw [hai]

theorem from_lists_err_of_stage (mol : Molecule) (bonds : List (Int × Int))
    (angles : List (Int × Int × Int)) (torsions : List (Int × Int × Int × Int))
    (beq aeq bk ak tks tphs : List ℚ) (tpers : List Int) (skip sorted : Bool)
    (hb1 : bonds.length = beq.length) (hb2 : beq.length = bk.length)
    (ha1 : angles.length = aeq.length) (ha2 : aeq.length = ak.length)
    (ht : torsions.length = tks.length)
    (hstage : exErr (bondAngleStage (if sorted then mol else mol.sort)
      bonds angles beq aeq bk ak) = true) :
    exErr (Parameters.from_lists mol bonds angles torsions beq aeq bk ak tks tphs tpers
      skip sorted) = true := by
  obtain ⟨e, he⟩ := (exErr_true_iff _).mp hstage
  unfold Parameters.from_lists
  dsimp only
  rw [if_pos ⟨hb1, hb2⟩, if_pos ⟨ha1, ha2⟩, if_pos ht, he]
  rfl

/-- Claim C6: Parameters.from_lists fails whenever the raw bond or angle list is shorter than the corresponding topology list, whenever the raw bond or angle list contains duplicate tuples, and whenever some canonical topology bond or angle tuple is absent from the canonically reordered converted raw list; otherwise the bond and angle stage succeeds and populates bond_k, bond_eq, angle_k and angle_eq row-aligned with the topology tuples through a first-occurrence lookup. -/
theorem c6_bond_angle_stage (mol M : Molecule) (bonds : List (Int × Int))
    (angles : List (Int × Int × Int)) (torsions : List (Int × Int × Int × Int))
    (beq aeq bk ak tks tphs : List ℚ) (tpers : List Int) (skip sorted : Bool)
    (hM : M = (if sorted then mol else mol.sort))
    (hb1 : bonds.length = beq.length) (hb2 : beq.length = bk.length)
    (ha1 : angles.length = aeq.length) (ha2 : aeq.length = ak.length)
    (ht : torsions.length = tks.length) :
    ((bonds.length < M.bonds.length ∨ angles.length < M.angles.length) →
      exErr (Parameters.from_lists mol bonds angles torsions beq aeq bk ak tks tphs tpers
        skip sorted) = true) ∧
    ((¬ bonds.Nodup ∨ ¬ angles.Nodup) →
      exErr (Parameters.from_lists mol bonds angles torsions beq aeq bk ak tks tphs tpers
        skip sorted) = true) ∧
    (∀ bIds, convPairs M.atoms bonds = .ok bIds →
      (∃ b ∈ M.bonds, ¬ b ∈ sortPairs bIds) →
      exErr (Parameters.from_lists mol bonds angles torsions beq aeq bk ak tks tphs tpers
        skip sorted) = true) ∧
    (∀ aIds, convTriples M.atoms angles = .ok aIds →
      (∃ a ∈ M.angles, ¬ a ∈ canonTriples aIds) →
      exErr (Parameters.from_lists mol bonds angles torsions beq aeq bk ak tks tphs tpers
        skip sorted) = true) ∧
    (∀ bIds aIds, convPairs M.atoms bonds = .ok bIds → convTriples M.atoms angles = .ok aIds →
      ¬ bonds.length < M.bonds.length → ¬ angles.length < M.angles.length →
      bonds.Nodup → angles.Nodup →
      (∀ b ∈ M.bonds, b ∈ sortPairs bIds) → (∀ a ∈ M.angles, a ∈ canonTriples aIds) →
      ∃ beq2 aeq2 bk2 ak2,
        bondAngleStage M bonds angles beq aeq bk ak = .ok (beq2, aeq2, bk2, ak2) ∧
        bk2.length = M.bonds.length ∧ ak2.length = M.angles.length ∧
        (∀ i, i < M.bonds.length →
          ∃ j, pyIndex (sortPairs bIds) (M.bonds.getD i (0, 0)) = some j ∧
            (sortPairs bIds).getD j (0, 0) = M.bonds.getD i (0, 0) ∧
            bk2.getD i 0 = bk.getD j 0 ∧ beq2.getD i 0 = beq.getD j 0) ∧
        (∀ i, i < M.angles.length →
          ∃ j, pyIndex (canonTriples aIds) (M.angles.getD i (0, 0, 0)) = some j ∧
            (canonTriples aIds).getD j (0, 0, 0) = M.angles.getD i (0, 0, 0) ∧
            ak2.getD i 0 = ak.getD j 0 ∧ aeq2.getD i 0 = aeq.getD j 0)) := by
  refine ⟨?_, ?_, ?_, ?_, ?_⟩
  · intro h
    exact from_lists_err_of_stage mol bonds angles torsions beq aeq bk ak tks tphs tpers
      skip sorted hb1 hb2 ha1 ha2 ht
      (stage_err_asserts _ bonds angles beq aeq bk ak (hM ▸ (by tauto)))
  · intro h
    exact from_lists_err_of_stage mol bonds angles torsions beq aeq bk ak tks tphs tpers
      skip sorted hb1 hb2 ha1 ha2 ht
      (stage_err_asserts _ bonds angles beq aeq bk ak (by tauto))
  · intro bIds hcb ⟨b0, hb0, habs⟩
    exact from_lists_err_of_stage mol bonds angles torsions beq aeq bk ak tks tphs tpers
      skip sorted hb1 hb2 ha1 ha2 ht
      (stage_err_absentB _ bonds angles beq aeq bk ak bIds (hM ▸ hcb) b0 (hM ▸ hb0) habs)
  · intro aIds hca ⟨a0, ha0, habs⟩
    exact from_lists_err_of_stage mol bonds angles torsions beq aeq bk ak tks tphs tpers
      skip sorted hb1 hb2 ha1 ha2 ht
      (stage_err_absentA _ bonds angles beq aeq bk ak aIds (hM ▸ hca) a0 (hM ▸ ha0) habs)
  · intro bIds aIds hcb hca h1 h2 h3 h4 hmb hma
    obtain ⟨bond_idxs, angle_idxs, hbi, hai, hstage⟩ :=
      stage_ok M bonds angles beq aeq bk ak bIds aIds hcb hca h1 h2 h3 h4 hmb hma
    obtain ⟨hblen, hbget⟩ := mapExcept_ok_get _ _ _ hbi
    obtain ⟨halen, haget⟩ := mapExcept_ok_get _ _ _ hai
    refine ⟨_, _, _, _, hstage, ?_, ?_, ?_, ?_⟩
    · rw [List.length_map, hblen]
    · rw [List.length_map, halen]
    · intro i hi
      have hfb := hbget i hi (0, 0) 0
      cases hj : pyIndex (sortPairs bIds) (M.bonds.getD i (0, 0)) with
      | none => rw [hj] at hfb; cases hfb
      | some j =>
        rw [hj] at hfb
        simp only [Except.ok.injEq] at hfb
        refine ⟨j, rfl, ?_, ?_, ?_⟩
        · exact (pyIndex_some_spec _ _ _ hj).2 (0, 0)
        · rw [getD_map _ _ i (by rw [hblen]; exact hi) 0 0, ← hfb]
        · rw [getD_map _ _ i (by rw [hblen]; exact hi) 0 0, ← hfb]
    · intro i hi
      have hfa := haget i hi (0, 0, 0) 0
      cases hj : pyIndex (canonTriples aIds) (M.angles.getD i (0, 0, 0)) with
      | none => rw [hj] at hfa; cases hfa
      | some j =>
        rw [hj] at hfa
        simp only [Except.ok.injEq] at hfa
        refine ⟨j, rfl, ?_, ?_, ?_⟩
        · exact (pyIndex_some_spec _ _ _ hj).2 (0, 0, 0)
        · rw [getD_map _ _ i (by rw [halen]; exact hi) 0 0, ← hfa]
        · rw [getD_map _ _ i (by rw [halen]; exact hi) 0 0, ← hfa]

/-- Witness for claim C6 at concrete inputs on the chain molecule: a short raw bond list fails, a duplicated raw bond tuple fails, a raw list missing the bond (2,3) fails, and a complete well-formed raw list yields the row-aligned arrays. -/
theorem c6_bond_angle_stage_witness :
    exErr (Parameters.from_lists pathMol [(0, 1), (1, 2)] [(0, 1, 2), (1, 2, 3)] []
      [1, 1] [1, 1] [1, 1] [1, 1] [] [] [] false true) = true ∧
    exErr (Parameters.from_lists pathMol [(0, 1), (1, 2), (2, 3), (0, 1)] [(0, 1, 2), (1, 2, 3)] []
      [1, 1, 1, 1] [1, 1] [1, 1, 1, 1] [1, 1] [] [] [] false true) = true ∧
    exErr (Parameters.from_lists pathMol [(0, 1), (1, 2), (0, 3)] [(0, 1, 2), (1, 2, 3)] []
      [1, 1, 1] [1, 1] [1, 1, 1] [1, 1] [] [] [] false true) = true ∧
    (∃ beq2 aeq2 bk2 ak2,
      bondAngleStage pathMol [(0, 1), (1, 2), (2, 3)] [(0, 1, 2), (1, 2, 3)]
        [1, 2, 3] [5, 6] [10, 20, 30] [7, 8] = .ok (beq2, aeq2, bk2, ak2) ∧
      bk2.length = pathMol.bonds.length ∧ ak2.length = pathMol.angles.length ∧
      (∀ i, i < pathMol.bonds.length →
        ∃ j, pyIndex (sortPairs [(0, 1), (1, 2), (2, 3)]) (pathMol.bonds.getD i (0, 0)) = some j ∧
          (sortPairs [(0, 1), (1, 2), (2, 3)]).getD j (0, 0) = pathMol.bonds.getD i (0, 0) ∧
          bk2.getD i 0 = ([10, 20, 30] : List ℚ).getD j 0 ∧
          beq2.getD i 0 = ([1, 2, 3] : List ℚ).getD j 0) ∧
      (∀ i, i < pathMol.angles.length →
        ∃ j, pyIndex (canonTriples [(0, 1, 2), (1, 2, 3)]) (pathMol.angles.getD i (0, 0, 0)) = some j ∧
          (canonTriples [(0, 1, 2), (1, 2, 3)]).getD j (0, 0, 0) = pathMol.angles.getD i (0, 0, 0) ∧
          ak2.getD i 0 = ([7, 8] : List ℚ).getD j 0 ∧
          aeq2.getD i 0 = ([5, 6] : List ℚ).getD j 0)) := by
  refine ⟨?_, ?_, ?_, ?_⟩
  · exact (c6_bond_angle_stage pathMol pathMol [(0, 1), (1, 2)] [(0, 1, 2), (1, 2, 3)] []
      [1, 1] [1, 1] [1, 1] [1, 1] [] [] [] false true rfl rfl rfl rfl rfl rfl).1
      (Or.inl (by decide))
  · exact (c6_bond_angle_stage pathMol pathMol [(0, 1), (1, 2), (2, 3), (0, 1)] [(0, 1, 2), (1, 2, 3)] []
      [1, 1, 1, 1] [1, 1] [1, 1, 1, 1] [1, 1] [] [] [] false true rfl rfl rfl rfl rfl rfl).2.1
      (Or.inl (by decide))
  · exact (c6_bond_angle_stage pathMol pathMol [(0, 1), (1, 2), (0, 3)] [(0, 1, 2), (1, 2, 3)] []
      [1, 1, 1] [1, 1] [1, 1, 1] [1, 1] [] [] [] false true rfl rfl rfl rfl rfl rfl).2.2.1
      [(0, 1), (1, 2), (0, 3)] rfl ⟨(2, 3), by decide, by decide⟩
  · exact (c6_bond_angle_stage pathMol pathMol [(0, 1), (1, 2), (2, 3)] [(0, 1, 2), (1, 2, 3)] []
      [1, 2, 3] [5, 6] [10, 20, 30] [7, 8] [] [] [] false true rfl rfl rfl rfl rfl rfl).2.2.2.2
      [(0, 1), (1, 2), (2, 3)] [(0, 1, 2), (1, 2, 3)] rfl rfl
      (by decide) (by decide) (by decide) (by decide) (by decide) (by decide)

/-- Witness for the amended claim C2: the accumulation run on the chain molecule yields proper_ks [[3,0,0,0,0,0]], whose entries are non-negative, and the normalization equations hold at coefficient -2. -/
theorem c2_nonneg_coefficients_witness :
    (∀ r ∈ ([[3, 0, 0, 0, 0, 0]] : List (List ℚ)), ∀ x ∈ r, 0 ≤ x) ∧
    normK (-2) = -(-2) ∧ normPhase (-2) 0 = pymod (0 + npPi) (2 * npPi) := by
  refine ⟨?_, ?_, ?_⟩
  · exact c2_nonneg_coefficients.1 pathMol [(0, 1), (1, 2), (2, 3)] [(0, 1, 2), (1, 2, 3)]
      [(0, 1, 2, 3), (0, 1, 2, 3)] [1, 1, 1] [1, 1] [1, 1, 1] [1, 1] [1, 2] [0, 0] [1, 1]
      false true cAccumParams rfl
  · exact (c2_nonneg_coefficients.2 (-2) 0 (by norm_num)).1
  · exact (c2_nonneg_coefficients.2 (-2) 0 (by norm_num)).2

/-- Witness for the amended claim C7 at a concrete record with impropers present. -/
theorem c7_round_trip_witness :
    Parameters.from_dict (Parameters.to_dict cRoundTripParams) = .ok cRoundTripParams :=
  c7_round_trip cRoundTripParams [(10, 20, 30, 40)] rfl

/-- Witness for claim C10 at a concrete record with impropers = None. -/
theorem c10_missing_improper_keys_witness :
    ((Parameters.to_dict pNoneEx).lookup "impropers" = none ∧
      (Parameters.to_dict pNoneEx).lookup "improper_ks" = none ∧
      (Parameters.to_dict pNoneEx).lookup "improper_phases" = none) ∧
    exErr (Parameters.from_dict (Parameters.to_dict pNoneEx)) = true :=
  c10_missing_improper_keys pNoneEx rfl
